import Mathlib

/-!
Shallow embedding of the decision core of the crypto trading engine
(risk/position engine, order tracker, circuit breaker, and the OBI,
pairs, adverse-selection and latency-arbitrage strategy cores), with
theorems settling the specification claims about them.

Modelling conventions:
* C++ doubles are modelled by exact rationals; overflow and rounding of
  IEEE doubles are outside the model.
* unordered_map / map containers are modelled by association lists in a
  fixed iteration order; std::unordered_set by a duplicate-free list.
* Clock readings are explicit parameters (integer timestamps).
* Mutexes / atomics concern interleaving only; every operation here is
  the sequential body of the corresponding C++ member function.
-/

namespace Trading

/-- Order side (types.hpp, enum Side). -/
inductive Side where
  | BUY
  | SELL
deriving DecidableEq, Repr

/-- Order status (types.hpp, enum OrderStatus). -/
inductive OrderStatus where
  | Pending
  | New
  | PartiallyFilled
  | Filled
  | Canceled
  | Rejected
  | Expired
deriving DecidableEq, Repr

/-- Execution venue (types.hpp, enum Venue). -/
inductive Venue where
  | BINANCE
  | BYBIT
  | COINBASE
  | KRAKEN
  | FTX
  | UNKNOWN
deriving DecidableEq, Repr

/-- Fill (types.hpp, struct Fill); only the fields read by the risk
engine are carried: symbol, side, price, quantity, fee and the local
receive timestamp. -/
structure Fill where
  symbol : String
  side : Side
  price : ℚ
  quantity : ℚ
  fee : ℚ
  received_time : ℤ
deriving DecidableEq, Repr

/-- Order (types.hpp, struct Order); fields read by the risk engine,
the tracker and the coordinator. -/
structure Order where
  order_id : String
  client_order_id : String
  symbol : String
  side : Side
  price : ℚ
  quantity : ℚ
  status : OrderStatus
  completed_time : ℤ
  strategy_name : String
deriving DecidableEq, Repr

/-- Order::is_active (types.hpp): status is NEW or PARTIALLY_FILLED. -/
def Order.is_active (o : Order) : Bool :=
  o.status == OrderStatus.New || o.status == OrderStatus.PartiallyFilled

/-- Order::is_complete (types.hpp): terminal status. -/
def Order.is_complete (o : Order) : Bool :=
  o.status == OrderStatus.Filled || o.status == OrderStatus.Canceled ||
  o.status == OrderStatus.Rejected || o.status == OrderStatus.Expired

/-- Association-list lookup, the model of map::find. -/
def alookup {κ α : Type} [BEq κ] (l : List (κ × α)) (k : κ) : Option α :=
  (l.find? (fun kv => kv.1 == k)).map (fun kv => kv.2)

/-- Association-list store, the model of map::operator[] assignment:
replace the binding when the key is present, append otherwise. -/
def astore {κ α : Type} [BEq κ] : List (κ × α) → κ → α → List (κ × α)
  | [], k, v => [(k, v)]
  | kv :: rest, k, v =>
    if kv.1 == k then (k, v) :: rest else kv :: astore rest k v

/-- Association-list erase, the model of map::erase by key. -/
def aerase {κ α : Type} [BEq κ] (l : List (κ × α)) (k : κ) :
    List (κ × α) :=
  l.filter (fun kv => !(kv.1 == k))

/-- Position (risk_manager.hpp, struct Position). -/
structure Position where
  symbol : String
  quantity : ℚ
  avg_price : ℚ
  realized_pnl : ℚ
  unrealized_pnl : ℚ
  total_fees_paid : ℚ
  notional_value : ℚ
  opened_time : ℤ
  last_update_time : ℤ
deriving DecidableEq, Repr

/-- Position default constructor: all value fields zero, both
timestamps set from the clock. -/
def Position.init (now : ℤ) : Position :=
  ⟨"", 0, 0, 0, 0, 0, 0, now, now⟩

/-- Position::is_flat: |quantity| < 1e-7. -/
def Position.is_flat (p : Position) : Bool :=
  |p.quantity| < 1 / 10000000

/-- Position::is_long: quantity > 1e-7. -/
def Position.is_long (p : Position) : Bool :=
  p.quantity > 1 / 10000000

/-- Position::is_short: quantity < -1e-7. -/
def Position.is_short (p : Position) : Bool :=
  p.quantity < -(1 / 10000000)

/-- Position::calculate_unrealized. -/
def Position.calculate_unrealized (p : Position) (current_price : ℚ) : ℚ :=
  if p.is_flat then 0 else p.quantity * (current_price - p.avg_price)

/-- Position::update_unrealized: refresh unrealized P&L and notional. -/
def Position.update_unrealized (p : Position) (current_price : ℚ) : Position :=
  { p with
    unrealized_pnl := p.calculate_unrealized current_price,
    notional_value := |p.quantity * current_price| }

/-- RiskLimits (risk_manager.hpp). -/
structure RiskLimits where
  max_position_per_symbol : ℚ
  max_total_gross_exposure : ℚ
  max_total_net_exposure : ℚ
  max_daily_loss : ℚ
  max_daily_profit : ℚ
  trailing_stop_pct : ℚ
  max_order_size : ℚ
  max_orders_per_second : ℤ
  max_single_symbol_pct : ℚ
  max_position_hold_seconds : ℤ
deriving DecidableEq, Repr

/-- RiskLimits default constructor values. -/
def RiskLimits.default : RiskLimits :=
  ⟨50000, 150000, 100000, 5000, 20000, 1/2, 10000, 50, 2/5, 300⟩

/-- The mutable state of RiskManager: the positions map, the two
atomic P&L accumulators and the recent-fills list. -/
structure RiskState where
  positions : List (String × Position)
  daily_realized_pnl : ℚ
  peak_daily_pnl : ℚ
  recent_fills : List Fill
deriving DecidableEq, Repr

/-- Fresh RiskManager state (constructor: peak 0, atomics 0, maps empty). -/
def RiskState.init : RiskState := ⟨[], 0, 0, []⟩

/-- RiskManager::RiskCheckResult. -/
structure RiskCheckResult where
  passed : Bool
  reason : String
deriving DecidableEq, Repr

/-- Sum of stored unrealized P&L over the positions map, as iterated by
get_total_pnl_internal and get_stats. -/
def sumUnrealized (ps : List (String × Position)) : ℚ :=
  (ps.map (fun kv => kv.2.unrealized_pnl)).sum

/-- RiskManager::calculate_total_gross_exposure: sum of stored
notional values (the price argument is ignored by the code). -/
def totalGrossExposure (ps : List (String × Position)) : ℚ :=
  (ps.map (fun kv => kv.2.notional_value)).sum

/-- RiskManager::get_total_pnl_internal(double): daily realized plus
the sum of stored unrealized P&L (the generic price is ignored). -/
def getTotalPnlInternal (st : RiskState) : ℚ :=
  st.daily_realized_pnl + sumUnrealized st.positions

/-- RiskManager::check_order — the six ordered pre-trade checks,
short-circuiting on the first failure. -/
def check_order (limits : RiskLimits) (st : RiskState) (order : Order)
    (current_price : ℚ) : RiskCheckResult :=
  -- Check 1: daily loss limit
  let current_pnl := getTotalPnlInternal st
  if current_pnl < -limits.max_daily_loss then
    ⟨false, "Daily loss limit exceeded"⟩
  else
  -- Check 2: trailing stop from peak
  let drawdown_from_peak := st.peak_daily_pnl - current_pnl
  let max_drawdown := limits.max_daily_loss * limits.trailing_stop_pct
  if drawdown_from_peak > max_drawdown then
    ⟨false, "Trailing stop hit"⟩
  else
  -- Check 3: order size limit
  let order_notional := order.quantity * order.price
  if order_notional > limits.max_order_size then
    ⟨false, "Order size exceeds limit"⟩
  else
  -- Check 4: per-symbol position limit
  let pos_opt := alookup st.positions order.symbol
  let current_notional :=
    match pos_opt with
    | some p => |p.quantity * current_price|
    | none => 0
  let old_quantity :=
    match pos_opt with
    | some p => p.quantity
    | none => 0
  let new_quantity :=
    match order.side with
    | Side.BUY => old_quantity + order.quantity
    | Side.SELL => old_quantity - order.quantity
  let new_notional := |new_quantity * current_price|
  if new_notional > limits.max_position_per_symbol then
    ⟨false, "Symbol position limit exceeded"⟩
  else
  -- Check 5: total gross exposure
  let total_gross := totalGrossExposure st.positions
  let order_impact :=
    match pos_opt with
    | some p =>
      if (p.is_long ∧ order.side = Side.SELL) ∨
         (p.is_short ∧ order.side = Side.BUY) then
        max 0 (new_notional - current_notional)
      else order_notional
    | none => order_notional
  if total_gross + order_impact > limits.max_total_gross_exposure then
    ⟨false, "Total gross exposure limit exceeded"⟩
  else
  -- Check 6: concentration limit
  let portfolio_value := total_gross + order_impact
  if portfolio_value > 0 ∧
      new_notional / portfolio_value > limits.max_single_symbol_pct then
    ⟨false, "Concentration limit exceeded"⟩
  else
    ⟨true, ""⟩

/-- RiskManager::on_fill — fill accounting. positions_[fill.symbol]
default-inserts a fresh Position; the three branches are opening,
adding, and closing/reducing; recent_fills keeps at most 1000
entries by dropping the oldest. -/
def on_fill (now : ℤ) (st : RiskState) (fill : Fill) : RiskState :=
  let pos := (alookup st.positions fill.symbol).getD (Position.init now)
  let signed_quantity :=
    match fill.side with
    | Side.BUY => fill.quantity
    | Side.SELL => -fill.quantity
  let pos' :=
    if pos.is_flat then
      -- opening a new position
      { pos with
        symbol := fill.symbol,
        quantity := signed_quantity,
        avg_price := fill.price,
        opened_time := fill.received_time,
        total_fees_paid := fill.fee }
    else if (pos.is_long ∧ fill.side = Side.BUY) ∨
            (pos.is_short ∧ fill.side = Side.SELL) then
      -- adding to the position
      let total_cost := pos.quantity * pos.avg_price +
        signed_quantity * fill.price
      let q' := pos.quantity + signed_quantity
      { pos with
        quantity := q',
        avg_price := total_cost / q',
        total_fees_paid := pos.total_fees_paid + fill.fee }
    else
      -- closing or reducing the position
      let closed_quantity := min |signed_quantity| |pos.quantity|
      let pnl := closed_quantity * (fill.price - pos.avg_price) *
        (if pos.is_long then 1 else -1)
      { pos with
        realized_pnl := pos.realized_pnl + (pnl - fill.fee),
        quantity := pos.quantity + signed_quantity,
        total_fees_paid := pos.total_fees_paid + fill.fee }
  let daily' :=
    if pos.is_flat then st.daily_realized_pnl
    else if (pos.is_long ∧ fill.side = Side.BUY) ∨
            (pos.is_short ∧ fill.side = Side.SELL) then
      st.daily_realized_pnl
    else
      let closed_quantity := min |signed_quantity| |pos.quantity|
      let pnl := closed_quantity * (fill.price - pos.avg_price) *
        (if pos.is_long then 1 else -1)
      st.daily_realized_pnl + (pnl - fill.fee)
  let pos'' := { pos' with last_update_time := now }
  let fills' := st.recent_fills ++ [fill]
  let fills'' := if fills'.length > 1000 then fills'.drop 1 else fills'
  { st with
    positions := astore st.positions fill.symbol pos'',
    daily_realized_pnl := daily',
    recent_fills := fills'' }

/-- The position-map pass of RiskManager::update_market_prices:
refresh the unrealized P&L of every position whose symbol has a price,
accumulating the refreshed unrealized total (skipped positions do not
contribute). -/
def markPositions (prices : List (String × ℚ)) :
    List (String × Position) → List (String × Position) × ℚ
  | [] => ([], 0)
  | (sym, pos) :: rest =>
    let (rest', acc) := markPositions prices rest
    match alookup prices sym with
    | some pr =>
      let p' := pos.update_unrealized pr
      ((sym, p') :: rest', p'.unrealized_pnl + acc)
    | none => ((sym, pos) :: rest', acc)

/-- RiskManager::update_market_prices: mark positions, then raise the
peak to the freshly computed total P&L if it exceeds it. -/
def update_market_prices (prices : List (String × ℚ)) (st : RiskState) :
    RiskState :=
  let mp := markPositions prices st.positions
  let total_pnl := st.daily_realized_pnl + mp.2
  { st with
    positions := mp.1,
    peak_daily_pnl := max st.peak_daily_pnl total_pnl }

/-- RiskManager::RiskStats. -/
structure RiskStats where
  total_realized_pnl : ℚ
  total_unrealized_pnl : ℚ
  total_pnl : ℚ
  gross_exposure : ℚ
  peak_pnl_today : ℚ
  drawdown_from_peak : ℚ
  num_positions : ℕ
  num_fills : ℕ
deriving DecidableEq, Repr

/-- RiskManager::get_stats (the net-exposure field, unused by any
claim, is omitted). -/
def get_stats (st : RiskState) : RiskStats :=
  let realized := st.daily_realized_pnl
  let unrealized := sumUnrealized st.positions
  let total := realized + unrealized
  { total_realized_pnl := realized
    total_unrealized_pnl := unrealized
    total_pnl := total
    gross_exposure := totalGrossExposure st.positions
    peak_pnl_today := st.peak_daily_pnl
    drawdown_from_peak := st.peak_daily_pnl - total
    num_positions := st.positions.length
    num_fills := st.recent_fills.length }

/-- Order book view (order_book.hpp): bids sorted descending and asks
sorted ascending, each a price-to-quantity ladder; modelled as lists
in iteration order. -/
structure OrderBook where
  bids : List (ℚ × ℚ)
  asks : List (ℚ × ℚ)
deriving DecidableEq, Repr

/-- OrderBook::get_best_bid: first bid price, 0 when empty. -/
def OrderBook.get_best_bid (b : OrderBook) : ℚ :=
  match b.bids with
  | [] => 0
  | (p, _) :: _ => p

/-- OrderBook::get_best_ask: first ask price, 0 when empty. -/
def OrderBook.get_best_ask (b : OrderBook) : ℚ :=
  match b.asks with
  | [] => 0
  | (p, _) :: _ => p

/-- OrderBook::get_mid_price: (bid+ask)/2, 0 when either side empty. -/
def OrderBook.get_mid_price (b : OrderBook) : ℚ :=
  let bid := b.get_best_bid
  let ask := b.get_best_ask
  if bid = 0 ∨ ask = 0 then 0 else (bid + ask) / 2

/-- OrderBookImbalanceStrategy::Config. -/
structure OBIConfig where
  num_levels : ℕ
  imbalance_threshold : ℚ
  min_volume_threshold : ℚ
  target_profit_bps : ℚ
  stop_loss_bps : ℚ
  signal_decay_ms : ℤ
deriving DecidableEq, Repr

/-- OrderBookImbalanceStrategy::OBISignal (the generated_at clock
field is not modelled). -/
structure OBISignal where
  symbol : String
  predicted_direction : Side
  imbalance_value : ℚ
  confidence : ℚ
  entry_price : ℚ
  target_price : ℚ
  stop_price : ℚ
  is_valid : Bool
deriving DecidableEq, Repr

/-- The default-constructed OBISignal for a symbol. -/
def OBISignal.init (symbol : String) : OBISignal :=
  ⟨symbol, Side.BUY, 0, 0, 0, 0, 0, false⟩

/-- Volume summed over the first num_levels ladder entries, as the
analyze loops do. -/
def topVolume (num_levels : ℕ) (levels : List (ℚ × ℚ)) : ℚ :=
  ((levels.take num_levels).map (fun pq => pq.2)).sum

/-- OrderBookImbalanceStrategy::analyze. -/
def obi_analyze (cfg : OBIConfig) (symbol : String) (book : OrderBook) :
    OBISignal :=
  let signal := OBISignal.init symbol
  let bid_volume := topVolume cfg.num_levels book.bids
  let ask_volume := topVolume cfg.num_levels book.asks
  let total_volume := bid_volume + ask_volume
  if total_volume < cfg.min_volume_threshold then
    signal
  else
    let imbalance := (bid_volume - ask_volume) / total_volume
    let signal := { signal with imbalance_value := imbalance }
    let abs_imbalance := |imbalance|
    if abs_imbalance < cfg.imbalance_threshold then
      signal
    else if imbalance > cfg.imbalance_threshold then
      let mid := book.get_mid_price
      { signal with
        predicted_direction := Side.BUY,
        confidence := min (abs_imbalance / (7/10)) 1,
        entry_price := mid,
        target_price := mid * (1 + cfg.target_profit_bps / 10000),
        stop_price := mid * (1 - cfg.stop_loss_bps / 10000),
        is_valid := true }
    else if imbalance < -cfg.imbalance_threshold then
      let mid := book.get_mid_price
      { signal with
        predicted_direction := Side.SELL,
        confidence := min (abs_imbalance / (7/10)) 1,
        entry_price := mid,
        target_price := mid * (1 - cfg.target_profit_bps / 10000),
        stop_price := mid * (1 + cfg.stop_loss_bps / 10000),
        is_valid := true }
    else
      signal

/-- AdverseSelectionFilter::FillEvent (fill_time is not modelled; the
outcome fields price_after_500ms / was_adverse / adverse_move_bps are
carried as data, as calculate_toxicity reads them). -/
structure FillEvent where
  our_side : Side
  fill_price : ℚ
  fill_quantity : ℚ
  price_after_500ms : ℚ
  was_adverse : Bool
  adverse_move_bps : ℚ
deriving DecidableEq, Repr

/-- AdverseSelectionFilter::ToxicityMetrics (the fields read by the
coordinator and the tier logic). -/
structure ToxicityMetrics where
  toxicity_score : ℚ
  toxicity_level : String
  recommended_spread_mult : ℚ
  fill_adverse_frac : ℚ
  avg_adverse_move_bps : ℚ
deriving DecidableEq, Repr

/-- AdverseSelectionFilter::Config (the fields the toxicity
computation reads). -/
structure AdverseConfig where
  lookback_trades : ℕ
  toxic_threshold : ℚ
  spread_multiplier_low : ℚ
  spread_multiplier_medium : ℚ
  spread_multiplier_high : ℚ
  significant_price_move_bps : ℚ
deriving DecidableEq, Repr

/-- AdverseSelectionFilter default Config values. -/
def AdverseConfig.default : AdverseConfig :=
  ⟨20, 3/5, 1, 3/2, 5/2, 5⟩

/-- AdverseSelectionFilter::calculate_toxicity, on the current fill
history; ms_since_last_toxic is the elapsed-milliseconds reading the
code derives from last_toxic_fill_time_ (10000 when never set). -/
def calculate_toxicity (cfg : AdverseConfig) (fill_history : List FillEvent)
    (ms_since_last_toxic : ℚ) : ToxicityMetrics :=
  let analyzed := fill_history.filter (fun f => f.price_after_500ms > 0)
  let analyzed_fills : ℕ := analyzed.length
  let adverse := analyzed.filter (fun f => f.was_adverse)
  let adverse_count : ℕ := adverse.length
  let total_adverse_move := (adverse.map (fun f => |f.adverse_move_bps|)).sum
  let fill_adverse_frac :=
    if analyzed_fills > 0 then (adverse_count : ℚ) / analyzed_fills else 0
  let avg_adverse_move :=
    if adverse_count > 0 then total_adverse_move / adverse_count else 0
  let ratio_component := fill_adverse_frac
  let magnitude_component := min (avg_adverse_move / 20) 1
  let recency_component := max 0 (1 - ms_since_last_toxic / 10000)
  let score := ratio_component * (1/2) + magnitude_component * (3/10) +
    recency_component * (1/5)
  if score < 3/10 then
    ⟨score, "LOW", cfg.spread_multiplier_low, fill_adverse_frac,
      avg_adverse_move⟩
  else if score < 3/5 then
    ⟨score, "MEDIUM", cfg.spread_multiplier_medium, fill_adverse_frac,
      avg_adverse_move⟩
  else
    ⟨score, "HIGH", cfg.spread_multiplier_high, fill_adverse_frac,
      avg_adverse_move⟩

/-- Step 5 of StrategyCoordinator::process_market_update: given the
order list accumulated by the strategy stages and the toxicity
metrics of the adverse-selection filter, remove market-making orders
(strategy tag "MM") when the toxicity score exceeds 0.7, else return
the list unchanged. -/
def coordinator_mm_stage (orders : List Order) (toxicity : ToxicityMetrics) :
    List Order :=
  if toxicity.toxicity_score > 7/10 then
    orders.filter (fun o => !(o.strategy_name == "MM"))
  else
    orders

/-- RunningStats (pairs_trading.hpp): Welford accumulator. -/
structure RunningStats where
  countN : ℕ
  mean : ℚ
  m2 : ℚ
deriving DecidableEq, Repr

/-- RunningStats default constructor. -/
def RunningStats.init : RunningStats := ⟨0, 0, 0⟩

/-- RunningStats::push. -/
def RunningStats.push (s : RunningStats) (x : ℚ) : RunningStats :=
  let count' := s.countN + 1
  let delta := x - s.mean
  let mean' := s.mean + delta / count'
  let delta2 := x - mean'
  ⟨count', mean', s.m2 + delta * delta2⟩

/-- RunningStats::pop_front. -/
def RunningStats.pop_front (s : RunningStats) (x : ℚ) : RunningStats :=
  if s.countN = 0 then s
  else
    let count' := s.countN - 1
    if count' = 0 then ⟨0, 0, 0⟩
    else
      let delta := x - s.mean
      let mean' := s.mean - delta / count'
      let delta2 := x - mean'
      ⟨count', mean', s.m2 - delta * delta2⟩

/-- The pairs-strategy state relevant to the rolling statistics: the
ring of ratio samples (oldest first, bounded by the lookback
capacity) and the Welford accumulator. The cached mean/stddev pair
(refreshed once count ≥ 20) reads these and is not separately
modelled; stddev needs a square root that ℚ lacks. -/
structure PairsState where
  capacity : ℕ
  rhistory : List ℚ
  stats_calculator : RunningStats
deriving DecidableEq, Repr

/-- Fresh PairsTradingStrategy rolling state (lookback_period > 0 is
enforced by the CircularBuffer constructor). -/
def PairsState.init (lookback_period : ℕ) : PairsState :=
  ⟨lookback_period, [], RunningStats.init⟩

/-- PairsTradingStrategy::update_prices: when the ring is full, pop
the oldest ratio from the accumulator and let the ring overwrite it;
push the new ratio into both. -/
def update_prices (st : PairsState) (price1 price2 : ℚ) : PairsState :=
  let rv := price1 / price2
  let full := st.rhistory.length = st.capacity
  let stats1 :=
    if full then
      match st.rhistory with
      | [] => st.stats_calculator
      | x :: _ => st.stats_calculator.pop_front x
    else st.stats_calculator
  let hist' :=
    if full then st.rhistory.drop 1 ++ [rv] else st.rhistory ++ [rv]
  { st with rhistory := hist', stats_calculator := stats1.push rv }

/-- Arithmetic mean of a list of rationals (0 for the empty list):
the batch mean the incremental statistics are compared against. -/
def listMean (l : List ℚ) : ℚ := l.sum / l.length

/-- Insert into a set modelled as a duplicate-free list
(unordered_set::insert). -/
def setInsert (l : List String) (x : String) : List String :=
  if x ∈ l then l else x :: l

/-- Erase from a set modelled as a list (unordered_set::erase). -/
def setErase (l : List String) (x : String) : List String :=
  l.filter (fun y => !(y == x))

/-- OrderTracker state: primary client-id-keyed order map and the
three indices guarded by the same lock. -/
structure TrackerState where
  orders : List (String × Order)
  order_id_to_client_id : List (String × String)
  symbol_orders : List (String × List String)
  active_orders : List String
deriving DecidableEq, Repr

/-- Fresh OrderTracker. -/
def TrackerState.init : TrackerState := ⟨[], [], [], []⟩

/-- Removal of the entry stored under key k holding order o: erase it
from the primary map and all three indices, as the two cleanup paths
do for each removed order. -/
def remove_order_entry (st : TrackerState) (k : String) (o : Order) :
    TrackerState :=
  { orders := aerase st.orders k,
    order_id_to_client_id := aerase st.order_id_to_client_id o.order_id,
    symbol_orders :=
      match alookup st.symbol_orders o.symbol with
      | some ids =>
        astore st.symbol_orders o.symbol
          (ids.filter (fun i => !(i == o.client_order_id)))
      | none => st.symbol_orders,
    active_orders := setErase st.active_orders o.client_order_id }

/-- Remove the entry currently stored under key k, if any. -/
def remove_key (st : TrackerState) (k : String) : TrackerState :=
  match alookup st.orders k with
  | some o => remove_order_entry st k o
  | none => st

/-- Insertion sort of (client id, completion time) pairs by ascending
time, the model of the std::sort call in cleanup_oldest_internal. -/
def insertByTime (p : String × ℤ) : List (String × ℤ) → List (String × ℤ)
  | [] => [p]
  | q :: qs => if p.2 ≤ q.2 then p :: q :: qs else q :: insertByTime p qs

/-- Sort by completion time, oldest first. -/
def sortByTime : List (String × ℤ) → List (String × ℤ)
  | [] => []
  | p :: ps => insertByTime p (sortByTime ps)

/-- OrderTracker::cleanup_oldest_internal(n): collect completed
orders, sort by completion time, remove the oldest n. -/
def cleanup_oldest (st : TrackerState) (n : ℕ) : TrackerState :=
  let completed := (st.orders.filter (fun kv => kv.2.is_complete)).map
    (fun kv => (kv.1, kv.2.completed_time))
  let sorted := sortByTime completed
  (sorted.take n).foldl (fun s p => remove_key s p.1) st

/-- The auto-cleanup threshold MAX_ORDERS in order_tracker.hpp. -/
def MAX_ORDERS : ℕ := 100000

/-- The insertion part of OrderTracker::track_order: store the order
under its client id, extend both secondary indices, and add the
client id to the active set when the order is active. -/
def track_insert (st : TrackerState) (o : Order) : TrackerState :=
  let st' : TrackerState :=
    { orders := astore st.orders o.client_order_id o,
      order_id_to_client_id :=
        astore st.order_id_to_client_id o.order_id o.client_order_id,
      symbol_orders :=
        astore st.symbol_orders o.symbol
          ((alookup st.symbol_orders o.symbol).getD [] ++ [o.client_order_id]),
      active_orders := st.active_orders }
  if o.is_active then
    { st' with active_orders := setInsert st'.active_orders o.client_order_id }
  else st'

/-- OrderTracker::track_order: auto-cleanup at the soft cap, then
insert. -/
def track_order (st : TrackerState) (o : Order) : TrackerState :=
  track_insert
    (if st.orders.length ≥ MAX_ORDERS then cleanup_oldest st 1000 else st) o

/-- OrderTracker::update_order: re-index active-set membership on the
status transition, then overwrite the stored order. -/
def update_order (st : TrackerState) (client_order_id : String) (updated : Order) :
    TrackerState :=
  match alookup st.orders client_order_id with
  | none => st
  | some old =>
    let active' :=
      if old.is_active ∧ ¬ updated.is_active then
        setErase st.active_orders client_order_id
      else if ¬ old.is_active ∧ updated.is_active then
        setInsert st.active_orders client_order_id
      else st.active_orders
    { st with
      orders := astore st.orders client_order_id updated,
      active_orders := active' }

/-- OrderTracker::cleanup_completed: remove every terminal-status
order older than the retention period (now and completion times in
seconds, mirroring the duration_cast). -/
def cleanup_completed (st : TrackerState) (retention_period now : ℤ) :
    TrackerState :=
  st.orders.foldl
    (fun s kv =>
      if kv.2.is_complete ∧ now - kv.2.completed_time > retention_period then
        remove_key s kv.1
      else s)
    st

/-- A tracker operation, as named by the spec: track_order,
update_order, or cleanup_completed. -/
inductive TrackerOp where
  | track (o : Order)
  | update (client_order_id : String) (updated : Order)
  | cleanup (retention_period now : ℤ)
deriving DecidableEq, Repr

/-- Apply a tracker operation. -/
def TrackerOp.apply (op : TrackerOp) (st : TrackerState) : TrackerState :=
  match op with
  | .track o => track_order st o
  | .update id o => update_order st id o
  | .cleanup r n => cleanup_completed st r n

/-- The spec's active-set invariant: a tracked order's client id is
in active_orders exactly when its stored status is NEW or
PARTIALLY_FILLED. -/
def ActiveInv (st : TrackerState) : Prop :=
  ∀ k o, alookup st.orders k = some o →
    (k ∈ st.active_orders ↔ o.is_active = true)

/-- Structural well-formedness the C++ tracker maintains alongside
the active-set invariant: every active id is tracked, and every entry
is stored under its own client id. -/
def TrackerWF (st : TrackerState) : Prop :=
  (∀ x ∈ st.active_orders, (alookup st.orders x).isSome) ∧
  (∀ k o, alookup st.orders k = some o → o.client_order_id = k) ∧
  ActiveInv st

/-- Pre-condition under which an operation is claimed to preserve the
invariant: a tracked order's client id is fresh, an update keeps the
client id it addresses; cleanup is unconditional. -/
def TrackerOp.pre (op : TrackerOp) (st : TrackerState) : Prop :=
  match op with
  | .track o => alookup st.orders o.client_order_id = none
  | .update id o => o.client_order_id = id
  | .cleanup _ _ => True

/-- Circuit breaker state machine (circuit_breaker.hpp). -/
inductive CircuitState where
  | CLOSED
  | OPEN
  | HALF_OPEN
deriving DecidableEq, Repr

/-- CircuitBreaker::Config (durations in seconds). -/
structure CBConfig where
  failure_threshold : ℤ
  success_threshold : ℤ
  timeout : ℤ
  test_period : ℤ
deriving DecidableEq, Repr

/-- CircuitBreaker mutable state; timestamps in seconds. -/
structure CBState where
  state : CircuitState
  failure_count : ℤ
  success_count : ℤ
  last_failure_time : ℤ
  half_open_start : ℤ
deriving DecidableEq, Repr

/-- Fresh breaker: CLOSED with zero counters. -/
def CBState.init : CBState := ⟨CircuitState.CLOSED, 0, 0, 0, 0⟩

/-- CircuitBreaker::open(reason): transition to OPEN (when not
already OPEN) and stamp the failure time. -/
def cb_open (now : ℤ) (st : CBState) : CBState :=
  if st.state ≠ CircuitState.OPEN then
    { st with state := CircuitState.OPEN, last_failure_time := now }
  else st

/-- CircuitBreaker::record_failure. -/
def record_failure (cfg : CBConfig) (now : ℤ) (st : CBState) : CBState :=
  if st.state = CircuitState.HALF_OPEN then
    cb_open now st
  else if st.state = CircuitState.CLOSED then
    let failures := st.failure_count + 1
    let st := { st with failure_count := failures }
    if failures ≥ cfg.failure_threshold then cb_open now st else st
  else st

/-- CircuitBreaker::record_success. -/
def record_success (cfg : CBConfig) (st : CBState) : CBState :=
  if st.state = CircuitState.HALF_OPEN then
    let successes := st.success_count + 1
    let st := { st with success_count := successes }
    if successes ≥ cfg.success_threshold then
      { st with
        state := CircuitState.CLOSED,
        failure_count := 0,
        success_count := 0 }
    else st
  else if st.state = CircuitState.CLOSED then
    if st.failure_count > 0 then
      { st with failure_count := st.failure_count - 1 }
    else st
  else st

/-- CircuitBreaker::allow_request: returns the decision and the
(possibly transitioned) state. -/
def allow_request (cfg : CBConfig) (now : ℤ) (st : CBState) :
    Bool × CBState :=
  if st.state = CircuitState.OPEN then
    let elapsed := now - st.last_failure_time
    if elapsed ≥ cfg.timeout then
      (true, { st with
        state := CircuitState.HALF_OPEN,
        half_open_start := now })
    else
      (false, st)
  else if st.state = CircuitState.HALF_OPEN then
    let elapsed := now - st.half_open_start
    if elapsed ≥ cfg.test_period ∧ st.success_count < cfg.success_threshold
    then (false, cb_open now st)
    else (true, st)
  else
    (true, st)

/-- LatencyArbOptimized::Config (latency_arb_optimized.hpp). -/
structure LAConfig where
  base_min_profit_bps : ℚ
  min_profit_decay_rate : ℚ
  max_slippage_bps : ℚ
  max_orderbook_staleness_ms : ℤ
  position_size_usd : ℚ
  max_concurrent_arbs : ℤ
  max_execution_latency_us : ℚ
deriving DecidableEq, Repr

/-- LatencyArbOptimized default Config values. -/
def LAConfig.default : LAConfig :=
  ⟨15, 7/10, 8, 50, 2000, 3, 200⟩

/-- LatencyArbOptimized::EnhancedArbOpportunity. -/
structure EnhancedArbOpportunity where
  symbol : String
  buy_venue : Venue
  sell_venue : Venue
  buy_price : ℚ
  sell_price : ℚ
  gross_profit_bps : ℚ
  fees_bps : ℚ
  slippage_bps : ℚ
  net_profit_bps : ℚ
  expected_profit_usd : ℚ
  execute_quantity : ℚ
  buy_liquidity_available : ℚ
  sell_liquidity_available : ℚ
  detection_latency_us : ℚ
  orderbook_age_ms : ℤ
  is_valid : Bool
  reject_reason : String
deriving DecidableEq, Repr

/-- Default-constructed EnhancedArbOpportunity. -/
def EnhancedArbOpportunity.init : EnhancedArbOpportunity :=
  ⟨"", Venue.UNKNOWN, Venue.UNKNOWN, 0, 0, 0, 0, 0, 0, 0, 0, 0, 0, 0, 0,
    false, ""⟩

/-- The buy-venue scan: lowest positive best ask over the venue map,
with the top-of-book ask quantity as available liquidity. Returns
(venue, price, liquidity) or none when no venue qualifies. -/
def findBestBuy (books : List (Venue × OrderBook)) :
    Option (Venue × ℚ × ℚ) :=
  books.foldl
    (fun best vb =>
      let ask := vb.2.get_best_ask
      let cur_price :=
        match best with
        | some b => b.2.1
        | none => 0
      if ask > 0 ∧ (best = none ∨ ask < cur_price) then
        some (vb.1, ask,
          match vb.2.asks with
          | [] => match best with
                  | some b => b.2.2
                  | none => 0
          | (_, q) :: _ => q)
      else best)
    none

/-- The sell-venue scan: highest best bid (record starts at 0, so
only a strictly positive bid is selected), with the top-of-book bid
quantity as liquidity. -/
def findBestSell (books : List (Venue × OrderBook)) :
    Option (Venue × ℚ × ℚ) :=
  books.foldl
    (fun best vb =>
      let bid := vb.2.get_best_bid
      let cur_price :=
        match best with
        | some b => b.2.1
        | none => 0
      if bid > cur_price then
        some (vb.1, bid,
          match vb.2.bids with
          | [] => match best with
                  | some b => b.2.2
                  | none => 0
          | (_, q) :: _ => q)
      else best)
    none

/-- LatencyArbOptimized::estimate_slippage: walk the relevant side of
the book for the target quantity, compare the VWAP to the best
price. -/
def estimate_slippage (book : OrderBook) (quantity : ℚ) (side : Side) : ℚ :=
  let levels := match side with
    | Side.BUY => book.asks
    | Side.SELL => book.bids
  let walk := levels.foldl
    (fun acc pq =>
      let (total_value, remaining_qty) := acc
      if remaining_qty ≤ 0 then acc
      else
        let fill_qty := min remaining_qty pq.2
        (total_value + fill_qty * pq.1, remaining_qty - fill_qty))
    ((0 : ℚ), quantity)
  let total_value := walk.1
  if total_value = 0 then 0
  else
    let vwap := total_value / quantity
    let best_price := match side with
      | Side.BUY => book.get_best_ask
      | Side.SELL => book.get_best_bid
    |vwap - best_price| / best_price

/-- LatencyArbOptimized::get_fee_bps. -/
def get_fee_bps (venue : Venue) : ℚ :=
  match venue with
  | Venue.BINANCE => 10
  | Venue.KRAKEN => 16
  | Venue.COINBASE => 40
  | _ => 20

/-- LatencyArbOptimized::get_dynamic_threshold: decay the base
threshold when no opportunity fired in the last 60 seconds
(timestamps in milliseconds, elapsed seconds by truncating
division). -/
def get_dynamic_threshold (cfg : LAConfig) (now_ms last_opportunity_ms : ℤ) :
    ℚ :=
  let seconds_since_last := (now_ms - last_opportunity_ms) / 1000
  if seconds_since_last > 60 then
    cfg.base_min_profit_bps * cfg.min_profit_decay_rate
  else cfg.base_min_profit_bps

/-- The maximum order-book age over the chosen buy and sell venues,
folded exactly as the freshness loop does (accumulator starts at 0,
venues missing a timestamp are skipped). -/
def max_book_age (now_ms : ℤ) (timestamps : List (Venue × ℤ))
    (buy_venue sell_venue : Venue) : ℤ :=
  let step := fun (acc : ℤ) (v : Venue) =>
    match alookup timestamps v with
    | some ts => max acc (now_ms - ts)
    | none => acc
  step (step 0 buy_venue) sell_venue

/-- LatencyArbOptimized::detect_global_best_opportunity. Clock
readings are parameters: now_ms is the freshness/threshold reading,
detection_latency_us the measured elapsed detection time,
last_opportunity_ms and active_arbs the relevant strategy state. -/
def detect_global_best_opportunity (cfg : LAConfig) (symbol : String)
    (books : List (Venue × OrderBook)) (timestamps : List (Venue × ℤ))
    (now_ms : ℤ) (detection_latency_us : ℚ) (active_arbs : ℤ)
    (last_opportunity_ms : ℤ) : Option EnhancedArbOpportunity :=
  if active_arbs ≥ cfg.max_concurrent_arbs then none
  else
  match findBestBuy books, findBestSell books with
  | some (buy_venue, buy_price, buy_liquidity),
    some (sell_venue, sell_price, sell_liquidity) =>
    if buy_venue = sell_venue then none
    else
      let opp := { EnhancedArbOpportunity.init with
        symbol := symbol,
        buy_venue := buy_venue,
        sell_venue := sell_venue,
        buy_price := buy_price,
        sell_price := sell_price,
        buy_liquidity_available := buy_liquidity,
        sell_liquidity_available := sell_liquidity,
        gross_profit_bps := (sell_price - buy_price) / buy_price * 10000,
        fees_bps := get_fee_bps buy_venue + get_fee_bps sell_venue }
      let slippage_result :=
        match alookup books buy_venue, alookup books sell_venue with
        | some buy_book, some sell_book =>
          let target_qty := cfg.position_size_usd / buy_price
          some ((estimate_slippage buy_book target_qty Side.BUY +
            estimate_slippage sell_book target_qty Side.SELL) * 10000)
        | _, _ => none
      let opp := { opp with slippage_bps := (slippage_result.getD 0) }
      if slippage_result.isSome ∧
          slippage_result.getD 0 > cfg.max_slippage_bps then
        some { opp with reject_reason := "Slippage too high" }
      else
        let opp := { opp with
          net_profit_bps :=
            opp.gross_profit_bps - opp.fees_bps - opp.slippage_bps }
        let max_age := max_book_age now_ms timestamps buy_venue sell_venue
        let opp := { opp with orderbook_age_ms := max_age }
        if max_age > cfg.max_orderbook_staleness_ms then
          some { opp with reject_reason := "Orderbook too stale" }
        else
          let threshold := get_dynamic_threshold cfg now_ms last_opportunity_ms
          if opp.net_profit_bps < threshold then
            some { opp with reject_reason := "Net profit below threshold" }
          else
            let max_qty := min buy_liquidity sell_liquidity
            let max_notional := max_qty * buy_price
            let target_notional := min cfg.position_size_usd max_notional
            let opp := { opp with
              execute_quantity := target_notional / buy_price,
              expected_profit_usd := opp.net_profit_bps / 10000 * target_notional,
              detection_latency_us := detection_latency_us }
            if detection_latency_us > cfg.max_execution_latency_us then
              some { opp with reject_reason := "Detection too slow" }
            else
              some { opp with is_valid := true }
  | _, _ => none

/-- The rolling-window invariant tying the Welford accumulator to the
ratio ring. -/
def PairsInv (st : PairsState) : Prop :=
  st.stats_calculator.countN = st.rhistory.length ∧
  st.stats_calculator.mean = listMean st.rhistory

/-- The window-content invariant: the ring holds exactly the last
(at most capacity) pushed ratios. -/
def WindowInv (rs : List ℚ) (st : PairsState) : Prop :=
  st.rhistory = rs.drop (rs.length - st.capacity) ∧
  st.rhistory.length = min rs.length st.capacity

theorem side_sell_eq_buy_false : (Side.SELL = Side.BUY) = False :=
  eq_false (by decide)

theorem side_buy_eq_sell_false : (Side.BUY = Side.SELL) = False :=
  eq_false (by decide)

/-- C1: on a fill that flips the position's sign, RiskManager::on_fill
books the realized P&L of the closed part and leaves the signed
residual, but it never reassigns avg_price, so the residual position
keeps the OLD average entry price instead of opening at fill.price.
At the spec's own scenario (+1 BTC @ 50000, SELL 1.5 BTC @ 60000,
fee 10): realized P&L rises by 9990 and the final quantity is -0.5 as
claimed, but avg_price stays 50000 where the claim requires 60000. -/
theorem C1_flip_keeps_stale_avg_price :
    let st : RiskState := on_fill 0 (on_fill 0 RiskState.init
      ⟨"BTCUSDT", Side.BUY, 50000, 1, 0, 0⟩)
      ⟨"BTCUSDT", Side.SELL, 60000, 3/2, 10, 0⟩
    st.daily_realized_pnl = 9990 ∧
    (alookup st.positions ("BTCUSDT")).map Position.quantity = some (-(1/2)) ∧
    (alookup st.positions ("BTCUSDT")).map Position.avg_price = some 50000 ∧
    (alookup st.positions ("BTCUSDT")).map Position.avg_price ≠ some 60000 := by
  norm_num [on_fill, alookup, astore, RiskState.init, Position.init,
    Position.is_flat, Position.is_long, Position.is_short, min_def, abs,
    side_sell_eq_buy_false, side_buy_eq_sell_false]

/-- C2: whenever daily realized plus stored unrealized P&L is below
-max_daily_loss, check_order rejects with exactly "Daily loss limit
exceeded", for every candidate order and reference price: the daily
loss gate is the first check and short-circuits all later ones. -/
theorem C2_daily_loss_first_and_short_circuits (limits : RiskLimits)
    (st : RiskState) (order : Order) (current_price : ℚ)
    (h : st.daily_realized_pnl + sumUnrealized st.positions
      < -limits.max_daily_loss) :
    check_order limits st order current_price =
      ⟨false, "Daily loss limit exceeded"⟩ := by
  have h' : getTotalPnlInternal st < -limits.max_daily_loss := h
  simp only [check_order, if_pos h']

/-- Witness for C2 at the spec's scenario: loss cap 5000 and seeded
daily realized P&L -5001 reject a concrete order. -/
theorem C2_daily_loss_witness :
    check_order RiskLimits.default ⟨[], -5001, 0, []⟩
      ⟨"", "c1", "BTCUSDT", Side.BUY, 100, 1, OrderStatus.New, 0, "OBI"⟩ 100 =
      ⟨false, "Daily loss limit exceeded"⟩ :=
  C2_daily_loss_first_and_short_circuits RiskLimits.default
    ⟨[], -5001, 0, []⟩
    ⟨"", "c1", "BTCUSDT", Side.BUY, 100, 1, OrderStatus.New, 0, "OBI"⟩ 100
    (by norm_num [sumUnrealized, RiskLimits.default])

/-- C3: RiskManager::on_fill performs no validation of fill.price or
fill.quantity. A fill with negative price is processed like any
other: starting from a fresh risk state it opens a position of
quantity 1 at avg_price -100 and appends the fill to recent_fills,
so the state IS mutated, contradicting the claimed reject-and-leave-
unchanged behaviour. -/
theorem C3_negative_fill_mutates_state :
    let st : RiskState := on_fill 0 RiskState.init ⟨"BTCUSDT", Side.BUY, -100, 1, 0, 0⟩
    st ≠ RiskState.init ∧
    (alookup st.positions ("BTCUSDT")).map Position.quantity = some 1 ∧
    (alookup st.positions ("BTCUSDT")).map Position.avg_price = some (-100) ∧
    st.recent_fills.length = 1 := by
  norm_num [on_fill, alookup, astore, RiskState.init, Position.init,
    Position.is_flat, Position.is_long, Position.is_short, min_def, abs,
    side_sell_eq_buy_false, side_buy_eq_sell_false]

/-- C10: the specified circuit-breaker cycle, at
failure_threshold 3, success_threshold 2, timeout 30 s: three
recorded failures trip the breaker to OPEN; 30 s after the last
failure the next allow_request returns true and moves it to
HALF_OPEN; two subsequent successes (within the test period) close
it again. -/
theorem C10_breaker_cycle :
    let cfg : CBConfig := ⟨3, 2, 30, 10⟩
    let s3 := record_failure cfg 0 (record_failure cfg 0
      (record_failure cfg 0 CBState.init))
    let a := allow_request cfg 30 s3
    let s6 := record_success cfg (record_success cfg a.2)
    s3.state = CircuitState.OPEN ∧
    a.1 = true ∧
    a.2.state = CircuitState.HALF_OPEN ∧
    s6.state = CircuitState.CLOSED := by
  decide

/-- C4 counterexample: update_market_prices accumulates the peak from
only the positions present in the price map, while get_stats sums the
stored unrealized P&L of ALL positions. Opening two positions, marking
only A up (+100, peak becomes 100), then marking only B up (+50, the
skipped A keeps its stored +100 but is not counted) leaves
peak_daily_pnl = 100 strictly below total_pnl = 150 immediately after
a call to update_market_prices. -/
theorem C4_peak_below_total_after_skipped_marks :
    let st := update_market_prices [("B", 150)]
      (update_market_prices [("A", 200)]
        (on_fill 0 (on_fill 0 RiskState.init ⟨"A", Side.BUY, 100, 1, 0, 0⟩)
          ⟨"B", Side.BUY, 100, 1, 0, 0⟩))
    (get_stats st).peak_pnl_today < (get_stats st).total_pnl := by
  norm_num +decide [update_market_prices, markPositions, on_fill, alookup,
    astore, RiskState.init, Position.init, Position.is_flat,
    Position.is_long, Position.is_short, get_stats, sumUnrealized,
    totalGrossExposure, Position.update_unrealized,
    Position.calculate_unrealized, min_def, abs, max_def]

theorem markPositions_covered_sum (prices : List (String × ℚ)) :
    ∀ ps : List (String × Position),
      (∀ kv ∈ ps, (alookup prices kv.1).isSome) →
      sumUnrealized (markPositions prices ps).1 = (markPositions prices ps).2
  | [], _ => by simp [markPositions, sumUnrealized]
  | (sym, pos) :: rest, hcov => by
    have hrest : ∀ kv ∈ rest, (alookup prices kv.1).isSome := by
      intro kv hkv
      exact hcov kv (List.mem_cons_of_mem _ hkv)
    have hhead : (alookup prices sym).isSome :=
      hcov (sym, pos) (List.mem_cons_self _ _)
    obtain ⟨pr, hpr⟩ := Option.isSome_iff_exists.mp hhead
    have ih := markPositions_covered_sum prices rest hrest
    simp only [markPositions, hpr, sumUnrealized, List.map_cons,
      List.sum_cons] at ih ⊢
    rw [ih]

/-- C4 amended: when the price map covers every stored position
entry — flat entries included, since a closed position's stale stored
unrealized P&L still counts in get_stats while a skipped entry does
not count toward the peak — peak_daily_pnl is at least total_pnl as
reported by get_stats immediately after update_market_prices. -/
theorem C4_peak_dominates_total_when_all_marked (st : RiskState)
    (prices : List (String × ℚ))
    (hcov : ∀ kv ∈ st.positions, (alookup prices kv.1).isSome) :
    (get_stats (update_market_prices prices st)).total_pnl ≤
      (get_stats (update_market_prices prices st)).peak_pnl_today := by
  have hsum := markPositions_covered_sum prices st.positions hcov
  simp only [get_stats, update_market_prices, hsum]
  exact le_max_right _ _

/-- Witness for C4 amended: a single fully-marked position. -/
theorem C4_peak_witness :
    (get_stats (update_market_prices [("A", 200)]
      ⟨[("A", ⟨"A", 1, 100, 0, 0, 0, 0, 0, 0⟩)], 0, 0, []⟩)).total_pnl ≤
    (get_stats (update_market_prices [("A", 200)]
      ⟨[("A", ⟨"A", 1, 100, 0, 0, 0, 0, 0, 0⟩)], 0, 0, []⟩)).peak_pnl_today :=
  C4_peak_dominates_total_when_all_marked
    ⟨[("A", ⟨"A", 1, 100, 0, 0, 0, 0, 0, 0⟩)], 0, 0, []⟩ [("A", 200)]
    (by
      intro kv hkv
      simp only [List.mem_singleton] at hkv
      subst hkv
      simp [alookup])

/-- C5 counterexample: at |I| exactly equal to imbalance_threshold
the claim demands a valid signal (|I| ≥ threshold), but analyze's
directional branches compare strictly, so no signal is emitted.
Book: top-5 bid volume 3, ask volume 1, threshold 1/2: I = 1/2 with
sufficient volume, yet is_valid = false. -/
theorem C5_boundary_imbalance_no_signal :
    let cfg : OBIConfig := ⟨5, 1/2, 1, 10, 5, 200⟩
    let book : OrderBook := ⟨[(100, 3)], [(101, 1)]⟩
    let vb := topVolume cfg.num_levels book.bids
    let va := topVolume cfg.num_levels book.asks
    vb + va ≥ cfg.min_volume_threshold ∧
    |(vb - va) / (vb + va)| ≥ cfg.imbalance_threshold ∧
    (obi_analyze cfg ("BTCUSDT") book).is_valid = false := by
  norm_num [obi_analyze, topVolume, OBISignal.init, abs, min_def]

/-- C5 amended: with enough top-N volume and a nonnegative threshold,
analyze emits a valid signal exactly when |I| STRICTLY exceeds
imbalance_threshold (not ≥), with side BUY for I > 0 and SELL
otherwise; when bid and ask volume agree the imbalance is 0 and no
signal is emitted. -/
theorem C5_signal_iff_strict_threshold (cfg : OBIConfig) (symbol : String)
    (book : OrderBook)
    (hvol : cfg.min_volume_threshold ≤
      topVolume cfg.num_levels book.bids + topVolume cfg.num_levels book.asks)
    (hthr : 0 ≤ cfg.imbalance_threshold) :
    ((obi_analyze cfg symbol book).is_valid = true ↔
      |(topVolume cfg.num_levels book.bids - topVolume cfg.num_levels book.asks) /
        (topVolume cfg.num_levels book.bids + topVolume cfg.num_levels book.asks)| >
        cfg.imbalance_threshold) ∧
    ((obi_analyze cfg symbol book).is_valid = true →
      (obi_analyze cfg symbol book).predicted_direction =
        (if 0 < (topVolume cfg.num_levels book.bids - topVolume cfg.num_levels book.asks) /
            (topVolume cfg.num_levels book.bids + topVolume cfg.num_levels book.asks)
         then Side.BUY else Side.SELL)) ∧
    (topVolume cfg.num_levels book.bids = topVolume cfg.num_levels book.asks →
      (topVolume cfg.num_levels book.bids - topVolume cfg.num_levels book.asks) /
        (topVolume cfg.num_levels book.bids + topVolume cfg.num_levels book.asks) = 0 ∧
      (obi_analyze cfg symbol book).is_valid = false) := by
  simp only [obi_analyze]
  set vb := topVolume cfg.num_levels book.bids with hvb
  set va := topVolume cfg.num_levels book.asks with hva
  set imb := (vb - va) / (vb + va) with himb
  have hnv : ¬ (vb + va < cfg.min_volume_threshold) := not_lt.mpr hvol
  by_cases h1 : |imb| < cfg.imbalance_threshold
  · simp only [if_neg hnv, if_pos h1]
    refine ⟨by simp [OBISignal.init]; linarith, by simp [OBISignal.init], ?_⟩
    intro hveq
    refine ⟨by rw [himb, hveq, sub_self, zero_div], by simp [OBISignal.init]⟩
  · by_cases h2 : imb > cfg.imbalance_threshold
    · have h0 : 0 < imb := lt_of_le_of_lt hthr h2
      have habs : cfg.imbalance_threshold < |imb| :=
        lt_of_lt_of_le h2 (le_abs_self _)
      simp only [if_neg hnv, if_neg h1, if_pos h2]
      refine ⟨by simpa using habs, ?_, ?_⟩
      · intro _
        simp [if_pos h0]
      · intro hveq
        have hz : imb = 0 := by rw [himb, hveq, sub_self, zero_div]
        rw [hz] at h2
        exact absurd hthr (by linarith)
    · by_cases h3 : imb < -cfg.imbalance_threshold
      · have h0 : ¬ (0 < imb) := by
          intro hc
          have hneg : (0 : ℚ) < -cfg.imbalance_threshold := lt_trans hc h3
          linarith
        have habs : cfg.imbalance_threshold < |imb| := by
          have hneg : cfg.imbalance_threshold < -imb := by linarith
          exact lt_of_lt_of_le hneg (neg_le_abs _)
        simp only [if_neg hnv, if_neg h1, if_neg h2, if_pos h3]
        refine ⟨by simpa using habs, ?_, ?_⟩
        · intro _
          simp [if_neg h0]
        · intro hveq
          have hz : imb = 0 := by rw [himb, hveq, sub_self, zero_div]
          rw [hz] at h3
          exact absurd hthr (by linarith)
      · have habs : ¬ (cfg.imbalance_threshold < |imb|) := by
          have hle : |imb| ≤ cfg.imbalance_threshold :=
            abs_le.mpr ⟨by linarith, by linarith⟩
          exact not_lt.mpr hle
        simp only [if_neg hnv, if_neg h1, if_neg h2, if_neg h3]
        refine ⟨by simpa [OBISignal.init] using habs,
          by simp [OBISignal.init], ?_⟩
        intro hveq
        refine ⟨by rw [himb, hveq, sub_self, zero_div],
          by simp [OBISignal.init]⟩

/-- Witness for C5 amended at the spec's OBI scenario: N = 5, bid
volume 100, ask volume 40, threshold 3/10, minimum volume 10. -/
theorem C5_signal_witness :
    ((obi_analyze ⟨5, 3/10, 10, 10, 5, 200⟩ "BTCUSDT"
        ⟨[(99, 100)], [(101, 40)]⟩).is_valid = true ↔
      |(topVolume 5 [((99 : ℚ), (100 : ℚ))] - topVolume 5 [((101 : ℚ), (40 : ℚ))]) /
        (topVolume 5 [((99 : ℚ), (100 : ℚ))] + topVolume 5 [((101 : ℚ), (40 : ℚ))])| >
        (3/10 : ℚ)) ∧
    ((obi_analyze ⟨5, 3/10, 10, 10, 5, 200⟩ "BTCUSDT"
        ⟨[(99, 100)], [(101, 40)]⟩).is_valid = true →
      (obi_analyze ⟨5, 3/10, 10, 10, 5, 200⟩ "BTCUSDT"
        ⟨[(99, 100)], [(101, 40)]⟩).predicted_direction =
        (if 0 < (topVolume 5 [((99 : ℚ), (100 : ℚ))] - topVolume 5 [((101 : ℚ), (40 : ℚ))]) /
            (topVolume 5 [((99 : ℚ), (100 : ℚ))] + topVolume 5 [((101 : ℚ), (40 : ℚ))])
         then Side.BUY else Side.SELL)) ∧
    (topVolume 5 [((99 : ℚ), (100 : ℚ))] = topVolume 5 [((101 : ℚ), (40 : ℚ))] →
      (topVolume 5 [((99 : ℚ), (100 : ℚ))] - topVolume 5 [((101 : ℚ), (40 : ℚ))]) /
        (topVolume 5 [((99 : ℚ), (100 : ℚ))] + topVolume 5 [((101 : ℚ), (40 : ℚ))]) = 0 ∧
      (obi_analyze ⟨5, 3/10, 10, 10, 5, 200⟩ "BTCUSDT"
        ⟨[(99, 100)], [(101, 40)]⟩).is_valid = false) :=
  C5_signal_iff_strict_threshold ⟨5, 3/10, 10, 10, 5, 200⟩ "BTCUSDT"
    ⟨[(99, 100)], [(101, 40)]⟩
    (by norm_num [topVolume]) (by norm_num)

/-- C6 counterexample: the coordinator's post-hoc filter removes MM
orders only when the toxicity score strictly exceeds 0.7, while the
HIGH tier already starts at 0.6. Two analyzed fills, both adverse
with average move 10 bps and no recency contribution, score exactly
13/20 = 0.65: the filter reports HIGH, yet a market-making order
survives the emit list. -/
theorem C6_high_toxicity_mm_retained :
    let m := calculate_toxicity AdverseConfig.default
      [⟨Side.BUY, 100, 1, 1, true, 10⟩, ⟨Side.SELL, 100, 1, 1, true, -10⟩]
      10000
    let mm_order : Order :=
      ⟨"E9", "c9", "BTCUSDT", Side.BUY, 100, 1, OrderStatus.New, 0, "MM"⟩
    m.toxicity_score = 13/20 ∧
    m.toxicity_level = "HIGH" ∧
    coordinator_mm_stage [mm_order] m = [mm_order] := by
  norm_num +decide [calculate_toxicity, coordinator_mm_stage,
    AdverseConfig.default, abs, min_def, max_def]

/-- C6 amended: for any toxicity metrics, the coordinator's MM stage
retains an order exactly when it was in the emit list and, in case
the toxicity score strictly exceeds 0.7, its strategy tag is not
"MM"; so MM candidates are removed precisely above score 0.7, not on
the whole HIGH tier. -/
theorem C6_mm_removed_iff_score_above_point_seven (orders : List Order)
    (m : ToxicityMetrics) (o : Order) :
    o ∈ coordinator_mm_stage orders m ↔
      (o ∈ orders ∧ (m.toxicity_score > 7/10 → o.strategy_name ≠ "MM")) := by
  unfold coordinator_mm_stage
  by_cases h : m.toxicity_score > 7/10
  · simp [if_pos h, List.mem_filter, h]
  · simp [if_neg h, h]

/-- Witness for C6 amended: at a score of 0.65 the MM order is
retained. -/
theorem C6_mm_stage_witness :
    (⟨"E9", "c9", "BTCUSDT", Side.BUY, 100, 1, OrderStatus.New, 0, "MM"⟩ : Order) ∈
      coordinator_mm_stage
        [⟨"E9", "c9", "BTCUSDT", Side.BUY, 100, 1, OrderStatus.New, 0, "MM"⟩]
        ⟨13/20, "HIGH", 5/2, 1, 10⟩ :=
  (C6_mm_removed_iff_score_above_point_seven _ _ _).mpr
    ⟨List.mem_singleton.mpr rfl, fun h => absurd h (by norm_num)⟩

theorem welford_push_step (S nq x : ℚ) (hn : nq ≠ 0) (hn1 : nq + 1 ≠ 0) :
    S / nq + (x - S / nq) / (nq + 1) = (S + x) / (nq + 1) := by
  field_simp
  ring

theorem welford_pop_step (S nq x : ℚ) (hn : nq ≠ 0) (hn1 : nq + 1 ≠ 0) :
    (x + S) / (nq + 1) - (x - (x + S) / (nq + 1)) / nq = S / nq := by
  field_simp
  ring

theorem stats_push_mean (s : RunningStats) (l : List ℚ) (x : ℚ)
    (hc : s.countN = l.length) (hm : s.mean = listMean l) :
    (s.push x).countN = (l ++ [x]).length ∧
      (s.push x).mean = listMean (l ++ [x]) := by
  refine ⟨by simp [RunningStats.push, hc], ?_⟩
  rcases eq_or_ne l.length 0 with h0 | h0
  · have hl : l = [] := List.length_eq_zero.mp h0
    subst hl
    norm_num [RunningStats.push, hc, hm, listMean] at hm ⊢
  · have hn : (l.length : ℚ) ≠ 0 := Nat.cast_ne_zero.mpr h0
    have hn1 : (l.length : ℚ) + 1 ≠ 0 := by positivity
    have hkey := welford_push_step l.sum (l.length : ℚ) x hn hn1
    simp only [RunningStats.push, hc, hm, listMean, List.sum_append,
      List.length_append, List.sum_cons, List.sum_nil, List.length_cons,
      List.length_nil, add_zero]
    push_cast
    linarith [hkey]

theorem stats_pop_mean (s : RunningStats) (x : ℚ) (t : List ℚ)
    (hc : s.countN = (x :: t).length) (hm : s.mean = listMean (x :: t)) :
    (s.pop_front x).countN = t.length ∧
      (s.pop_front x).mean = listMean t := by
  have hc' : s.countN = t.length + 1 := by simpa using hc
  have hcne : s.countN ≠ 0 := by omega
  rcases eq_or_ne t.length 0 with h0 | h0
  · have ht : t = [] := List.length_eq_zero.mp h0
    subst ht
    have hone : s.countN - 1 = 0 := by omega
    refine ⟨?_, ?_⟩ <;>
      simp [RunningStats.pop_front, if_neg hcne, hone, listMean]
  · have hsub : s.countN - 1 = t.length := by omega
    have hn : (t.length : ℚ) ≠ 0 := Nat.cast_ne_zero.mpr h0
    have hn1 : (t.length : ℚ) + 1 ≠ 0 := by positivity
    have hkey := welford_pop_step t.sum (t.length : ℚ) x hn hn1
    have hne : t ≠ [] := by
      intro hteq
      rw [hteq] at h0
      exact h0 rfl
    refine ⟨?_, ?_⟩
    · simp [RunningStats.pop_front, if_neg hcne, hsub, if_neg h0, hne]
    · simp only [RunningStats.pop_front, if_neg hcne, hsub, if_neg h0,
        hne, hm, listMean, List.sum_cons, List.length_cons]
      push_cast
      linarith [hkey]

theorem update_prices_preserves_inv (st : PairsState) (p1 p2 : ℚ)
    (h : PairsInv st) : PairsInv (update_prices st p1 p2) := by
  obtain ⟨hc, hm⟩ := h
  unfold update_prices PairsInv
  by_cases hfull : st.rhistory.length = st.capacity
  · simp only [if_pos hfull]
    cases hh : st.rhistory with
    | nil =>
      simp only [hh] at hc
      simp only [List.length_nil] at hc
      have := stats_push_mean st.stats_calculator [] (p1 / p2) hc
        (by simpa [hh] using hm)
      simpa [hh] using this
    | cons y t =>
      have hpop := stats_pop_mean st.stats_calculator y t
        (by rw [← hh]; exact hc) (by rw [← hh]; exact hm)
      have hpush := stats_push_mean (st.stats_calculator.pop_front y) t
        (p1 / p2) hpop.1 hpop.2
      simpa [hh] using hpush
  · simp only [if_neg hfull]
    exact stats_push_mean st.stats_calculator st.rhistory (p1 / p2) hc hm

theorem foldl_update_preserves_inv (inputs : List (ℚ × ℚ)) :
    ∀ st : PairsState, PairsInv st →
      PairsInv (inputs.foldl (fun s pq => update_prices s pq.1 pq.2) st) := by
  induction inputs with
  | nil => intro st h; exact h
  | cons pq rest ih =>
    intro st h
    exact ih _ (update_prices_preserves_inv st pq.1 pq.2 h)

theorem update_prices_window (st : PairsState) (rs : List ℚ) (p1 p2 : ℚ)
    (hcap : 0 < st.capacity) (h : WindowInv rs st) :
    WindowInv (rs ++ [p1 / p2]) (update_prices st p1 p2) := by
  obtain ⟨hh, hl⟩ := h
  have hcapeq : (update_prices st p1 p2).capacity = st.capacity := by
    simp only [update_prices]
  by_cases hfull : st.rhistory.length = st.capacity
  · have hge : st.capacity ≤ rs.length := by
      rw [hfull] at hl
      omega
    have hupd : (update_prices st p1 p2).rhistory =
        st.rhistory.drop 1 ++ [p1 / p2] := by
      simp only [update_prices, if_pos hfull]
    refine ⟨?_, ?_⟩
    · rw [hupd, hcapeq]
      simp only [List.length_append, List.length_singleton]
      rw [List.drop_append_eq_append_drop]
      have hz : rs.length + 1 - st.capacity - rs.length = 0 := by omega
      rw [hz, List.drop_zero]
      rw [hh, List.drop_drop]
      have harith : rs.length - st.capacity + 1 =
          rs.length + 1 - st.capacity := by omega
      rw [harith]
    · rw [hupd, hcapeq]
      simp only [List.length_append, List.length_singleton, List.length_drop]
      omega
  · have hlt : rs.length < st.capacity := by
      rcases Nat.lt_or_ge rs.length st.capacity with hc | hc
      · exact hc
      · rw [min_eq_right hc] at hl
        exact absurd hl hfull
    have hrs : st.rhistory = rs := by
      rw [hh]
      have hz : rs.length - st.capacity = 0 := by omega
      rw [hz, List.drop_zero]
    have hupd : (update_prices st p1 p2).rhistory =
        st.rhistory ++ [p1 / p2] := by
      simp only [update_prices, if_neg hfull]
    refine ⟨?_, ?_⟩
    · rw [hupd, hcapeq, hrs]
      have hz : (rs ++ [p1 / p2]).length - st.capacity = 0 := by
        simp only [List.length_append, List.length_singleton]
        omega
      rw [hz, List.drop_zero]
    · rw [hupd, hcapeq, hrs]
      simp only [List.length_append, List.length_singleton]
      omega

theorem update_prices_capacity (st : PairsState) (p1 p2 : ℚ) :
    (update_prices st p1 p2).capacity = st.capacity := by
  simp only [update_prices]

theorem foldl_update_capacity (inputs : List (ℚ × ℚ)) :
    ∀ st : PairsState,
      (inputs.foldl (fun s pq => update_prices s pq.1 pq.2) st).capacity =
        st.capacity := by
  induction inputs with
  | nil => intro st; rfl
  | cons pq rest ih =>
    intro st
    rw [List.foldl_cons, ih, update_prices_capacity]

theorem foldl_update_window (inputs : List (ℚ × ℚ)) :
    ∀ (st : PairsState) (rs : List ℚ), 0 < st.capacity → WindowInv rs st →
      WindowInv (rs ++ inputs.map (fun pq => pq.1 / pq.2))
        (inputs.foldl (fun s pq => update_prices s pq.1 pq.2) st) := by
  induction inputs with
  | nil =>
    intro st rs _ h
    simpa using h
  | cons pq rest ih =>
    intro st rs hcap h
    have hstep := update_prices_window st rs pq.1 pq.2 hcap h
    have hcap' : 0 < (update_prices st pq.1 pq.2).capacity := by
      rw [update_prices_capacity]
      exact hcap
    have := ih (update_prices st pq.1 pq.2) (rs ++ [pq.1 / pq.2]) hcap' hstep
    simpa [List.append_assoc] using this

/-- C7: after any sequence of update_prices calls, the Welford
accumulator's incremental mean agrees with the batch mean of the
ratios left in the window — the last (up to lookback) pushed ratios —
to within 1e-9; in this exact-arithmetic model they are equal, so the
bound holds. -/
theorem C7_incremental_mean_matches_batch (cap : ℕ) (hcap : 0 < cap)
    (inputs : List (ℚ × ℚ)) :
    let final : PairsState := inputs.foldl (fun s pq => update_prices s pq.1 pq.2)
      (PairsState.init cap)
    let rs := inputs.map (fun pq => pq.1 / pq.2)
    final.rhistory = rs.drop (rs.length - cap) ∧
    |final.stats_calculator.mean - listMean final.rhistory| ≤
      1 / 1000000000 := by
  intro final rs
  have hinit_inv : PairsInv (PairsState.init cap) := by
    constructor
    · rfl
    · simp [PairsState.init, RunningStats.init, listMean]
  have hinit_win : WindowInv [] (PairsState.init cap) := by
    constructor
    · simp [PairsState.init]
    · simp [PairsState.init]
  have hwin := foldl_update_window inputs (PairsState.init cap) [] hcap
    hinit_win
  have hinv := foldl_update_preserves_inv inputs (PairsState.init cap)
    hinit_inv
  have hcapf : final.capacity = cap :=
    foldl_update_capacity inputs (PairsState.init cap)
  refine ⟨?_, ?_⟩
  · have hw := hwin.1
    simp only [List.nil_append] at hw
    rw [← hcapf]
    exact hw
  · rw [hinv.2, sub_self, abs_zero]
    norm_num

/-- Witness for C7: lookback 2, ratios 2, 4, 9: the window holds
[4, 9] and the incremental mean equals the batch mean 13/2. -/
theorem C7_incremental_mean_witness :
    0 < 2 ∧
    (let final : PairsState := ([((2 : ℚ), (1 : ℚ)), (4, 1), (9, 1)]).foldl
      (fun s pq => update_prices s pq.1 pq.2) (PairsState.init 2)
    let rs := ([((2 : ℚ), (1 : ℚ)), (4, 1), (9, 1)]).map
      (fun pq => pq.1 / pq.2)
    final.rhistory = rs.drop (rs.length - 2) ∧
    |final.stats_calculator.mean - listMean final.rhistory| ≤
      1 / 1000000000) :=
  ⟨by norm_num,
    C7_incremental_mean_matches_batch 2 (by norm_num)
      [((2 : ℚ), (1 : ℚ)), (4, 1), (9, 1)]⟩

theorem alookup_nil {α : Type} (k : String) :
    alookup ([] : List (String × α)) k = none := rfl

theorem alookup_cons {α : Type} (kv : String × α) (l : List (String × α))
    (k : String) :
    alookup (kv :: l) k = if kv.1 = k then some kv.2 else alookup l k := by
  by_cases h : kv.1 = k
  · have hb : (kv.1 == k) = true := by simp [h]
    simp [alookup, List.find?, hb, h]
  · have hb : (kv.1 == k) = false := by simp [h]
    simp [alookup, List.find?, hb, h]

theorem alookup_astore {α : Type} (l : List (String × α)) (k k' : String)
    (v : α) :
    alookup (astore l k v) k' = if k' = k then some v else alookup l k' := by
  induction l with
  | nil =>
    have hstep : astore ([] : List (String × α)) k v = [(k, v)] := rfl
    rw [hstep, alookup_cons]
    by_cases h : k' = k
    · rw [if_pos h, if_pos (h.symm)]
    · rw [if_neg h, if_neg (fun hn => h hn.symm), alookup_nil]
  | cons kv rest ih =>
    by_cases hk : kv.1 = k
    · have hstep : astore (kv :: rest) k v = (k, v) :: rest := by
        simp [astore, hk]
      rw [hstep, alookup_cons]
      by_cases h : k' = k
      · rw [if_pos h, if_pos (h.symm)]
      · rw [if_neg (fun hn => h hn.symm), if_neg h, alookup_cons]
        rw [if_neg (by rw [hk]; exact fun hn => h hn.symm)]
    · have hstep : astore (kv :: rest) k v = kv :: astore rest k v := by
        simp [astore, hk]
      rw [hstep, alookup_cons, ih, alookup_cons]
      by_cases h : k' = k
      · rw [if_pos h, if_pos h, if_neg (fun hn => hk (h ▸ hn))]
      · rw [if_neg h, if_neg h]

theorem alookup_aerase {α : Type} (l : List (String × α)) (k k' : String) :
    alookup (aerase l k) k' = if k' = k then none else alookup l k' := by
  induction l with
  | nil =>
    have hstep : aerase ([] : List (String × α)) k = [] := rfl
    rw [hstep]
    by_cases h : k' = k
    · rw [if_pos h, alookup_nil]
    · rw [if_neg h]
  | cons kv rest ih =>
    by_cases hk : kv.1 = k
    · have hstep : aerase (kv :: rest) k = aerase rest k := by
        simp [aerase, List.filter_cons, hk]
      rw [hstep, ih]
      by_cases h : k' = k
      · rw [if_pos h, if_pos h]
      · rw [if_neg h, if_neg h, alookup_cons]
        rw [if_neg (by rw [hk]; exact fun hn => h hn.symm)]
    · have hstep : aerase (kv :: rest) k = kv :: aerase rest k := by
        simp [aerase, List.filter_cons, hk]
      rw [hstep, alookup_cons, ih, alookup_cons]
      by_cases h : k' = k
      · rw [if_pos h, if_pos h, if_neg (fun hn => hk (h ▸ hn))]
      · rw [if_neg h, if_neg h]

theorem mem_setInsert (l : List String) (x y : String) :
    y ∈ setInsert l x ↔ y = x ∨ y ∈ l := by
  unfold setInsert
  by_cases h : x ∈ l
  · rw [if_pos h]
    constructor
    · exact fun hy => Or.inr hy
    · rintro (rfl | hy)
      · exact h
      · exact hy
  · rw [if_neg h]
    simp

theorem mem_setErase (l : List String) (x y : String) :
    y ∈ setErase l x ↔ y ∈ l ∧ y ≠ x := by
  unfold setErase
  simp [List.mem_filter]

theorem remove_order_entry_wf (st : TrackerState) (k : String) (o : Order)
    (hwf : TrackerWF st) (hkey : o.client_order_id = k) :
    TrackerWF (remove_order_entry st k o) := by
  obtain ⟨hsub, hcons, hinv⟩ := hwf
  have horders : ∀ k', alookup (remove_order_entry st k o).orders k' =
      if k' = k then none else alookup st.orders k' := by
    intro k'
    simp only [remove_order_entry]
    exact alookup_aerase st.orders k k'
  have hactive : ∀ x, x ∈ (remove_order_entry st k o).active_orders ↔
      x ∈ st.active_orders ∧ x ≠ k := by
    intro x
    simp only [remove_order_entry, hkey]
    exact mem_setErase st.active_orders k x
  refine ⟨?_, ?_, ?_⟩
  · intro x hx
    rw [hactive] at hx
    rw [horders, if_neg hx.2]
    exact hsub x hx.1
  · intro k' o' h'
    rw [horders] at h'
    by_cases hkk : k' = k
    · rw [if_pos hkk] at h'
      cases h'
    · rw [if_neg hkk] at h'
      exact hcons k' o' h'
  · intro k' o' h'
    rw [horders] at h'
    by_cases hkk : k' = k
    · rw [if_pos hkk] at h'
      cases h'
    · rw [if_neg hkk] at h'
      rw [hactive, hinv k' o' h']
      constructor
      · exact fun hp => hp.1
      · exact fun hp => ⟨hp, hkk⟩

theorem remove_key_wf (st : TrackerState) (k : String)
    (hwf : TrackerWF st) : TrackerWF (remove_key st k) := by
  unfold remove_key
  cases hlook : alookup st.orders k with
  | none => exact hwf
  | some o => exact remove_order_entry_wf st k o hwf (hwf.2.1 k o hlook)

theorem foldl_tracker_wf {β : Type} (f : TrackerState → β → TrackerState)
    (hf : ∀ s b, TrackerWF s → TrackerWF (f s b)) :
    ∀ (l : List β) (st : TrackerState), TrackerWF st →
      TrackerWF (l.foldl f st) := by
  intro l
  induction l with
  | nil => intro st h; exact h
  | cons b rest ih =>
    intro st h
    exact ih (f st b) (hf st b h)

theorem cleanup_completed_wf (st : TrackerState) (retention_period now : ℤ)
    (hwf : TrackerWF st) : TrackerWF (cleanup_completed st retention_period now) := by
  unfold cleanup_completed
  refine foldl_tracker_wf _ ?_ st.orders st hwf
  intro s kv h
  by_cases hc : kv.2.is_complete = true ∧ now - kv.2.completed_time > retention_period
  · rw [if_pos hc]
    exact remove_key_wf s kv.1 h
  · rw [if_neg hc]
    exact h

theorem cleanup_oldest_wf (st : TrackerState) (n : ℕ)
    (hwf : TrackerWF st) : TrackerWF (cleanup_oldest st n) := by
  unfold cleanup_oldest
  refine foldl_tracker_wf _ ?_ _ st hwf
  intro s p h
  exact remove_key_wf s p.1 h

theorem remove_key_orders_none (st : TrackerState) (k' x : String)
    (h : alookup st.orders x = none) :
    alookup (remove_key st k').orders x = none := by
  unfold remove_key
  cases hlook : alookup st.orders k' with
  | none => exact h
  | some o =>
    simp only [remove_order_entry]
    rw [alookup_aerase]
    by_cases hx : x = k'
    · rw [if_pos hx]
    · rw [if_neg hx]
      exact h

theorem foldl_remove_key_none {β : Type} (key : β → String) :
    ∀ (l : List β) (st : TrackerState) (x : String),
      alookup st.orders x = none →
      alookup ((l.foldl (fun s b => remove_key s (key b)) st)).orders x =
        none := by
  intro l
  induction l with
  | nil => intro st x h; exact h
  | cons b rest ih =>
    intro st x h
    exact ih (remove_key st (key b)) x (remove_key_orders_none st (key b) x h)

theorem cleanup_oldest_orders_none (st : TrackerState) (n : ℕ) (x : String)
    (h : alookup st.orders x = none) :
    alookup (cleanup_oldest st n).orders x = none := by
  unfold cleanup_oldest
  exact foldl_remove_key_none (fun p : String × ℤ => p.1) _ st x h

theorem track_insert_wf (st : TrackerState) (o : Order)
    (hwf : TrackerWF st)
    (hfresh : alookup st.orders o.client_order_id = none) :
    TrackerWF (track_insert st o) := by
  obtain ⟨hsub, hcons, hinv⟩ := hwf
  by_cases hact : o.is_active
  · simp only [track_insert, if_pos hact]
    refine ⟨?_, ?_, ?_⟩
    · intro x hx
      rw [mem_setInsert] at hx
      rw [alookup_astore]
      rcases hx with rfl | hx
      · rw [if_pos rfl]
        rfl
      · by_cases hxi : x = o.client_order_id
        · rw [if_pos hxi]
          rfl
        · rw [if_neg hxi]
          exact hsub x hx
    · intro k' o' h'
      rw [alookup_astore] at h'
      by_cases hkk : k' = o.client_order_id
      · rw [if_pos hkk] at h'
        cases h'
        exact hkk.symm
      · rw [if_neg hkk] at h'
        exact hcons k' o' h'
    · intro k' o' h'
      rw [alookup_astore] at h'
      rw [mem_setInsert]
      by_cases hkk : k' = o.client_order_id
      · rw [if_pos hkk] at h'
        cases h'
        simp [hkk, hact]
      · rw [if_neg hkk] at h'
        simp only [hkk, false_or]
        exact hinv k' o' h'
  · simp only [track_insert, if_neg hact]
    refine ⟨?_, ?_, ?_⟩
    · intro x hx
      rw [alookup_astore]
      by_cases hxi : x = o.client_order_id
      · rw [if_pos hxi]
        rfl
      · rw [if_neg hxi]
        exact hsub x hx
    · intro k' o' h'
      rw [alookup_astore] at h'
      by_cases hkk : k' = o.client_order_id
      · rw [if_pos hkk] at h'
        cases h'
        exact hkk.symm
      · rw [if_neg hkk] at h'
        exact hcons k' o' h'
    · intro k' o' h'
      rw [alookup_astore] at h'
      by_cases hkk : k' = o.client_order_id
      · rw [if_pos hkk] at h'
        cases h'
        constructor
        · intro hmem
          have := hsub k' (hkk ▸ hmem)
          rw [hkk, hfresh] at this
          cases this
        · intro hcontra
          rw [hcontra] at hact
          exact absurd rfl hact
      · rw [if_neg hkk] at h'
        exact hinv k' o' h'

theorem track_order_wf (st : TrackerState) (o : Order)
    (hwf : TrackerWF st)
    (hfresh : alookup st.orders o.client_order_id = none) :
    TrackerWF (track_order st o) := by
  unfold track_order
  by_cases hlen : st.orders.length ≥ MAX_ORDERS
  · rw [if_pos hlen]
    exact track_insert_wf _ o (cleanup_oldest_wf st 1000 hwf)
      (cleanup_oldest_orders_none st 1000 o.client_order_id hfresh)
  · rw [if_neg hlen]
    exact track_insert_wf st o hwf hfresh

theorem update_order_wf (st : TrackerState) (cid : String) (updated : Order)
    (hwf : TrackerWF st) (hid : updated.client_order_id = cid) :
    TrackerWF (update_order st cid updated) := by
  obtain ⟨hsub, hcons, hinv⟩ := hwf
  unfold update_order
  cases hlook : alookup st.orders cid with
  | none => exact ⟨hsub, hcons, hinv⟩
  | some old =>
    have horder : ∀ k', alookup (astore st.orders cid updated) k' =
        if k' = cid then some updated else alookup st.orders k' :=
      fun k' => alookup_astore st.orders cid k' updated
    have hold := hinv cid old hlook
    by_cases hc1 : old.is_active = true ∧ ¬ updated.is_active = true
    · simp only [if_pos hc1]
      refine ⟨?_, ?_, ?_⟩
      · intro x hx
        rw [mem_setErase] at hx
        rw [horder, if_neg hx.2]
        exact hsub x hx.1
      · intro k' o' h'
        rw [horder] at h'
        by_cases hkk : k' = cid
        · rw [if_pos hkk] at h'
          cases h'
          rw [hid, hkk]
        · rw [if_neg hkk] at h'
          exact hcons k' o' h'
      · intro k' o' h'
        rw [horder] at h'
        rw [mem_setErase]
        by_cases hkk : k' = cid
        · rw [if_pos hkk] at h'
          cases h'
          constructor
          · intro hp
            exact absurd hkk hp.2
          · intro hp
            exact absurd hp hc1.2
        · rw [if_neg hkk] at h'
          rw [hinv k' o' h']
          constructor
          · exact fun hp => hp.1
          · exact fun hp => ⟨hp, hkk⟩
    · by_cases hc2 : ¬ old.is_active = true ∧ updated.is_active = true
      · simp only [if_neg hc1, if_pos hc2]
        refine ⟨?_, ?_, ?_⟩
        · intro x hx
          rw [mem_setInsert] at hx
          rw [horder]
          rcases hx with rfl | hx
          · rw [if_pos rfl]
            rfl
          · by_cases hxi : x = cid
            · rw [if_pos hxi]
              rfl
            · rw [if_neg hxi]
              exact hsub x hx
        · intro k' o' h'
          rw [horder] at h'
          by_cases hkk : k' = cid
          · rw [if_pos hkk] at h'
            cases h'
            rw [hid, hkk]
          · rw [if_neg hkk] at h'
            exact hcons k' o' h'
        · intro k' o' h'
          rw [horder] at h'
          rw [mem_setInsert]
          by_cases hkk : k' = cid
          · rw [if_pos hkk] at h'
            cases h'
            simp [hkk, hc2.2]
          · rw [if_neg hkk] at h'
            simp only [hkk, false_or]
            exact hinv k' o' h'
      · simp only [if_neg hc1, if_neg hc2]
        have hsame : old.is_active = updated.is_active := by
          by_cases ho : old.is_active = true <;>
            by_cases hu : updated.is_active = true
          · rw [ho, hu]
          · exact absurd ⟨ho, hu⟩ hc1
          · exact absurd ⟨ho, hu⟩ hc2
          · rw [Bool.not_eq_true] at ho hu
            rw [ho, hu]
        refine ⟨?_, ?_, ?_⟩
        · intro x hx
          rw [horder]
          by_cases hxi : x = cid
          · rw [if_pos hxi]
            rfl
          · rw [if_neg hxi]
            exact hsub x hx
        · intro k' o' h'
          rw [horder] at h'
          by_cases hkk : k' = cid
          · rw [if_pos hkk] at h'
            cases h'
            rw [hid, hkk]
          · rw [if_neg hkk] at h'
            exact hcons k' o' h'
        · intro k' o' h'
          rw [horder] at h'
          by_cases hkk : k' = cid
          · rw [if_pos hkk] at h'
            cases h'
            rw [hsame, ← hkk] at hold
            exact hold
          · rw [if_neg hkk] at h'
            exact hinv k' o' h'

/-- C8 counterexample: track_order only ever INSERTS into the active
set (when the new order is active); re-tracking an already-active
client id with an order in a terminal status overwrites the stored
order but leaves the id in active_orders. From an empty tracker,
track a NEW order with client id "X", then track a FILLED order with
the same client id: the stored status is inactive, yet "X" remains in
the active set, violating the membership invariant the claim says
every operation preserves. -/
theorem C8_retrack_breaks_active_invariant :
    let o1 : Order :=
      ⟨"E1", "X", "BTCUSDT", Side.BUY, 100, 1, OrderStatus.New, 0, "OBI"⟩
    let o2 : Order :=
      ⟨"E1", "X", "BTCUSDT", Side.BUY, 100, 1, OrderStatus.Filled, 5, "OBI"⟩
    let st1 := track_order TrackerState.init o1
    let st2 := track_order st1 o2
    ActiveInv st1 ∧
    alookup st2.orders ("X") = some o2 ∧
    o2.is_active = false ∧
    "X" ∈ st2.active_orders ∧
    ¬ ActiveInv st2 := by
  intro o1 o2 st1 st2
  have hst1o : st1.orders = [("X", o1)] := by
    norm_num +decide [st1, track_order, track_insert, cleanup_oldest,
      TrackerState.init, MAX_ORDERS, astore, alookup, Order.is_active,
      setInsert]
  have hst1a : st1.active_orders = ["X"] := by
    norm_num +decide [st1, track_order, track_insert, cleanup_oldest,
      TrackerState.init, MAX_ORDERS, astore, alookup, Order.is_active,
      setInsert]
  have hst2o : st2.orders = [("X", o2)] := by
    norm_num +decide [st2, st1, track_order, track_insert, cleanup_oldest,
      TrackerState.init, MAX_ORDERS, astore, alookup, Order.is_active,
      setInsert, o1, o2]
  have hst2a : st2.active_orders = ["X"] := by
    norm_num +decide [st2, st1, track_order, track_insert, cleanup_oldest,
      TrackerState.init, MAX_ORDERS, astore, alookup, Order.is_active,
      setInsert, o1, o2]
  refine ⟨?_, ?_, ?_, ?_, ?_⟩
  · intro k o h
    rw [hst1o, alookup_cons] at h
    by_cases hk : ("X" : String) = k
    · rw [if_pos hk] at h
      cases h
      rw [hst1a, ← hk]
      simp [o1, Order.is_active]
    · rw [if_neg hk, alookup_nil] at h
      cases h
  · rw [hst2o, alookup_cons, if_pos rfl]
  · decide
  · rw [hst2a]
    exact List.mem_singleton.mpr rfl
  · intro hinv
    have h := hinv ("X") o2 (by rw [hst2o, alookup_cons, if_pos rfl])
    rw [hst2a] at h
    have hmem : ("X" : String) ∈ ["X"] := List.mem_singleton.mpr rfl
    have := h.mp hmem
    simp [o2, Order.is_active] at this

/-- C8 amended: the active-set membership invariant (with the
structural facts the C++ tracker maintains alongside it: every active
id is tracked and every entry is keyed by its own client id) is
preserved by update_order whenever the updated order keeps the client
id it is stored under, by cleanup_completed unconditionally, and by
track_order whenever the tracked client id is not already present;
re-tracking an existing active id with a terminal-status order is the
one violation, exhibited by the counterexample. -/
theorem C8_ops_preserve_active_invariant (st : TrackerState)
    (op : TrackerOp) (hwf : TrackerWF st) (hpre : op.pre st) :
    TrackerWF (op.apply st) := by
  cases op with
  | track o => exact track_order_wf st o hwf hpre
  | update cid o => exact update_order_wf st cid o hwf hpre
  | cleanup r n => exact cleanup_completed_wf st r n hwf

theorem trackerInit_wf : TrackerWF TrackerState.init := by
  refine ⟨?_, ?_, ?_⟩
  · intro x hx
    simp [TrackerState.init] at hx
  · intro k o h
    rw [show TrackerState.init.orders = [] from rfl, alookup_nil] at h
    cases h
  · intro k o h
    rw [show TrackerState.init.orders = [] from rfl, alookup_nil] at h
    cases h

/-- Witness for C8 amended: tracking a fresh NEW order into the empty
tracker preserves well-formedness (hence the active-set invariant). -/
theorem C8_ops_preserve_witness :
    TrackerWF (TrackerOp.apply
      (TrackerOp.track
        ⟨"E1", "X", "BTCUSDT", Side.BUY, 100, 1, OrderStatus.New, 0, "OBI"⟩)
      TrackerState.init) :=
  C8_ops_preserve_active_invariant TrackerState.init
    (TrackerOp.track
      ⟨"E1", "X", "BTCUSDT", Side.BUY, 100, 1, OrderStatus.New, 0, "OBI"⟩)
    trackerInit_wf rfl

/-- C9: once the arbitrage-count, venue-selection and slippage gates
pass, detect_global_best_opportunity computes the maximum order-book
age over the chosen buy and sell venues and, whenever that age
exceeds max_orderbook_staleness_ms, returns the opportunity with
is_valid = false and reject_reason exactly "Orderbook too stale",
recording that age in the opportunity. -/
theorem C9_stale_orderbook_rejected (cfg : LAConfig) (symbol : String)
    (books : List (Venue × OrderBook)) (timestamps : List (Venue × ℤ))
    (now_ms : ℤ) (detection_latency_us : ℚ)
    (active_arbs last_opportunity_ms : ℤ)
    (bv sv : Venue) (bp bl sp sl : ℚ) (bb sb : OrderBook)
    (hact : active_arbs < cfg.max_concurrent_arbs)
    (hbuy : findBestBuy books = some (bv, bp, bl))
    (hsell : findBestSell books = some (sv, sp, sl))
    (hne : bv ≠ sv)
    (hbb : alookup books bv = some bb)
    (hsb : alookup books sv = some sb)
    (hslip : (estimate_slippage bb (cfg.position_size_usd / bp) Side.BUY +
        estimate_slippage sb (cfg.position_size_usd / bp) Side.SELL) * 10000 ≤
      cfg.max_slippage_bps)
    (hstale : max_book_age now_ms timestamps bv sv >
      cfg.max_orderbook_staleness_ms) :
    (detect_global_best_opportunity cfg symbol books timestamps now_ms
        detection_latency_us active_arbs last_opportunity_ms).map
      (fun o => (o.is_valid, o.reject_reason, o.orderbook_age_ms)) =
      some (false, "Orderbook too stale",
        max_book_age now_ms timestamps bv sv) := by
  have hnact : ¬ (active_arbs ≥ cfg.max_concurrent_arbs) := not_le.mpr hact
  simp only [detect_global_best_opportunity, if_neg hnact, hbuy, hsell,
    if_neg hne, hbb, hsb, Option.isSome_some, Option.getD_some, true_and,
    if_neg (not_lt.mpr hslip), if_pos hstale, EnhancedArbOpportunity.init,
    Option.map_some']

/-- Witness for C9 at the spec's staleness scenario: two venues, one
order book 120 ms old versus a 50 ms limit, zero slippage, prices
within bps of each other — rejected with "Orderbook too stale". -/
theorem C9_stale_orderbook_witness :
    (detect_global_best_opportunity LAConfig.default ("BTCUSD")
        [(Venue.BINANCE, ⟨[(9990, 1)], [(10000, 1)]⟩),
         (Venue.KRAKEN, ⟨[(10010, 1)], [(10020, 1)]⟩)]
        [(Venue.BINANCE, 880), (Venue.KRAKEN, 990)]
        1000 0 0 1000).map
      (fun o => (o.is_valid, o.reject_reason, o.orderbook_age_ms)) =
      some (false, "Orderbook too stale",
        max_book_age 1000 [(Venue.BINANCE, 880), (Venue.KRAKEN, 990)]
          Venue.BINANCE Venue.KRAKEN) :=
  C9_stale_orderbook_rejected LAConfig.default ("BTCUSD")
    [(Venue.BINANCE, ⟨[(9990, 1)], [(10000, 1)]⟩),
     (Venue.KRAKEN, ⟨[(10010, 1)], [(10020, 1)]⟩)]
    [(Venue.BINANCE, 880), (Venue.KRAKEN, 990)]
    1000 0 0 1000
    Venue.BINANCE Venue.KRAKEN 10000 1 10010 1
    ⟨[(9990, 1)], [(10000, 1)]⟩ ⟨[(10010, 1)], [(10020, 1)]⟩
    (by norm_num [LAConfig.default])
    (by norm_num +decide [findBestBuy, List.foldl, OrderBook.get_best_ask])
    (by norm_num +decide [findBestSell, List.foldl, OrderBook.get_best_bid])
    (by decide)
    (by norm_num +decide [alookup, List.find?])
    (by norm_num +decide [alookup, List.find?])
    (by norm_num [LAConfig.default, estimate_slippage, List.foldl,
      OrderBook.get_best_ask, OrderBook.get_best_bid, min_def, abs])
    (by norm_num +decide [LAConfig.default, max_book_age, alookup,
      List.find?, max_def])

end Trading
